import Mathlib

/-!
Verification of the traffic-source analysis pipeline of the blog server
(`server.js`): the UTM traffic-source parser, the channel classifier, the
order-date normalizer, the aggregation pipeline of `processTrafficFile`,
and the rule-based insight generator.

The JavaScript code is shallowly embedded: spreadsheet cell values become
an explicit `JSValue` sum type, monetary amounts become exact rationals
(JS floating-point rounding is not modelled; the spec states its
percentage invariants only up to rounding epsilon, which the exact model
subsumes), and JS objects used as grouping maps become insertion-ordered
association lists.  Division by zero is 0 in the rational model where JS
produces NaN; every statement that touches a quotient with a possibly
zero denominator treats that case explicitly.
-/

unseal Rat.inv Rat.mul Rat.add Rat.sub

/-- A spreadsheet cell value as produced by the sheet-to-JSON conversion:
a number, a string, or absent (`undefined`).  Numbers are modelled as
exact rationals; the numeric cells relevant here are serial dates and
prices. -/
inductive JSValue where
  | num (q : ℚ)
  | str (s : String)
  | undefined
deriving DecidableEq, Repr

/-- JS truthiness test for the values of `JSValue` (`!v` in the source):
`undefined`, `0` and `""` are falsy. -/
def jsFalsy : JSValue → Bool
  | .num q => q == 0
  | .str s => s == ""
  | .undefined => true

/-- JS `String(v)` coercion.  Integral rationals print as in JS; the
traffic-source and date cells this is applied to are strings in scope. -/
def jsToString : JSValue → String
  | .num q => toString q
  | .str s => s
  | .undefined => "undefined"

/-- The sentinel used by `parseTrafficSource` for missing fields. -/
def notSet : String := "(not set)"

/-- JS `s.split(sep)` for a one-character separator, on character
lists; the empty string yields one empty field, like in JS. -/
def splitOnChar (sep : Char) : List Char → List (List Char)
  | [] => [[]]
  | c :: rest =>
    let r := splitOnChar sep rest
    if c = sep then [] :: r
    else
      match r with
      | [] => [[c]]
      | h :: t => (c :: h) :: t

/-- JS `s.trim()` on character lists. -/
def trimL (l : List Char) : List Char :=
  ((l.dropWhile Char.isWhitespace).reverse.dropWhile Char.isWhitespace).reverse

/-- JS `s.toLowerCase()` on character lists. -/
def toLowerL (l : List Char) : List Char := l.map Char.toLower

/-- JS `s.toLowerCase()` on strings. -/
def lowerStr (s : String) : String := String.mk (toLowerL s.toList)

/-- The parsed UTM triple returned by `parseTrafficSource`. -/
structure ParsedTS where
  source : String
  medium : String
  campaign : String
deriving DecidableEq, Repr

/-- JS `s || d`: the empty string falls back to the default. -/
def jsOrElse (s d : String) : String := if s = "" then d else s

/-- The lower-cased trimmed key of a `key=value` pair, as the pair loop
of `parseTrafficSource` computes it. -/
def utmKeyOf (pair : List Char) : List Char :=
  toLowerL (trimL ((splitOnChar '=' pair).headD []))

/-- The stored value of a `key=value` pair: the trimmed second field of
the split, with the two empty-value fallbacks (`value ? ... : ...` and
`|| "(not set)"`) of the source.  The JS `pair.split("=", 2)` keeps the
first two fields of the unlimited split. -/
def utmValOf (pair : List Char) : String :=
  let value := (splitOnChar '=' pair).getD 1 []
  jsOrElse (if value.isEmpty then notSet else String.mk (trimL value)) notSet

/-- One iteration of the pair loop of `parseTrafficSource`: a
`key=value` pair updates the field selected by the lower-cased trimmed
key; pairs without an equals sign are skipped. -/
def updTS (acc : ParsedTS) (pair : List Char) : ParsedTS :=
  if pair.contains '=' then
    if utmKeyOf pair = "utmcsr".toList then { acc with source := utmValOf pair }
    else if utmKeyOf pair = "utmcmd".toList then { acc with medium := utmValOf pair }
    else if utmKeyOf pair = "utmccn".toList then { acc with campaign := utmValOf pair }
    else acc
  else acc

/-- `parseTrafficSource` from the source: falsy input yields the three
sentinels, otherwise the `|`-delimited pairs are folded left to right. -/
def parseTrafficSource (ts : JSValue) : ParsedTS :=
  if jsFalsy ts then ⟨notSet, notSet, notSet⟩
  else (splitOnChar '|' (jsToString ts).toList).foldl updTS ⟨notSet, notSet, notSet⟩

/-- Substring test on character lists: JS `hay.includes(needle)`. -/
def hasSubstr : List Char → List Char → Bool
  | [], needle => needle.isEmpty
  | c :: rest, needle => needle.isPrefixOf (c :: rest) || hasSubstr rest needle

/-- JS `hay.includes(needle)` on strings. -/
def strIncludes (hay needle : String) : Bool := hasSubstr hay.toList needle.toList

/-- The fixed social-platform name list of `classifyChannel`. -/
def socialNames : List String :=
  ["facebook", "instagram", "twitter", "linkedin", "tiktok", "youtube", "pinterest"]

/-- `classifyChannel` from the source: the ordered first-match-wins rule
list over the lower-cased source and medium. -/
def classifyChannel (source medium : String) : String :=
  let s := lowerStr source
  let m := lowerStr medium
  if m = "cpc" then "Paid Search"
  else if m = "organic" then "Organic Search"
  else if s = "(direct)" ∨ m = "(none)" then "Direct"
  else if m = "email" then "Email Marketing"
  else if m = "referral" then "Referral"
  else if socialNames.any (fun x => strIncludes s x) then "Social"
  else "Other"

/-- Drop `p` from the front of `l` if `p` is a prefix, else fail. -/
def dropPrefixChars : List Char → List Char → Option (List Char)
  | [], l => some l
  | _ :: _, [] => none
  | p :: ps, c :: cs => if p = c then dropPrefixChars ps cs else none

/-- Attempt of the regex `flashyapp_automation_(\d+)` anchored at the
head of the list: the fixed literal followed by at least one digit;
the digit run is maximal. -/
def tryEmailAt (l : List Char) : Option String :=
  match dropPrefixChars "flashyapp_automation_".toList l with
  | some r =>
    let ds := r.takeWhile Char.isDigit
    if ds.isEmpty then none else some (String.mk ds)
  | none => none

/-- Leftmost match of `flashyapp_automation_(\d+)` in the list, as the
JS regex engine finds it: try each start position left to right. -/
def scanEmailId : List Char → Option String
  | [] => none
  | c :: rest =>
    match tryEmailAt (c :: rest) with
    | some r => some r
    | none => scanEmailId rest

/-- `extractEmailCampaignId` from the source. -/
def extractEmailCampaignId (ts : JSValue) : Option String :=
  if jsFalsy ts then none
  else scanEmailId (jsToString ts).toList

/-- Attempt of the regex `(\d{2})\/(\d{2})\/(\d{4})` anchored at the head
of the list; on success returns the year and month capture strings. -/
def tryDateAt : List Char → Option (String × String)
  | d1 :: d2 :: s1 :: m1 :: m2 :: s2 :: y1 :: y2 :: y3 :: y4 :: _ =>
    if d1.isDigit && d2.isDigit && (s1 = '/') && m1.isDigit && m2.isDigit &&
       (s2 = '/') && y1.isDigit && y2.isDigit && y3.isDigit && y4.isDigit then
      some (String.mk [y1, y2, y3, y4], String.mk [m1, m2])
    else none
  | _ => none

/-- Leftmost match of `(\d{2})\/(\d{2})\/(\d{4})` in the list. -/
def scanDate : List Char → Option (String × String)
  | [] => none
  | c :: rest =>
    match tryDateAt (c :: rest) with
    | some r => some r
    | none => scanDate rest

/-- Civil year and month of a day count relative to 1970-01-01 in the
proleptic Gregorian calendar (the date arithmetic the source performs
with millisecond offsets from `new Date(1899, 11, 30)`). -/
def civilYM (z0 : Int) : Int × Int :=
  let z := z0 + 719468
  let era := Int.fdiv z 146097
  let doe := z - era * 146097
  let yoe := Int.fdiv (doe - Int.fdiv doe 1460 + Int.fdiv doe 36524 - Int.fdiv doe 146096) 365
  let y := yoe + era * 400
  let doy := doe - (365 * yoe + Int.fdiv yoe 4 - Int.fdiv yoe 100)
  let mp := Int.fdiv (5 * doy + 2) 153
  let m := mp + (if mp < 10 then 3 else -9)
  (y + (if m ≤ 2 then 1 else 0), m)

/-- Two-digit zero padding of the month, as `padStart(2, "0")` does. -/
def padMonth (m : Int) : String :=
  if m < 10 then "0" ++ toString m else toString m

/-- The `"YYYY-MM"` key of a spreadsheet serial date: days counted from
the epoch 1899-12-30 (which is day -25569 relative to 1970-01-01);
fractional days fall inside the day they start, hence the floor. -/
def serialMonthKey (q : ℚ) : String :=
  let ym := civilYM (Int.floor q - 25569)
  toString ym.1 ++ "-" ++ padMonth ym.2

/-- `parseOrderDate` from the source: falsy input (absent, `0`, `""`)
yields nothing; a number is a spreadsheet serial date; any other value
is stringified and searched for the `DD/MM/YYYY` pattern. -/
def parseOrderDate (dateValue : JSValue) : Option String :=
  if jsFalsy dateValue then none
  else
    match dateValue with
    | .num q => some (serialMonthKey q)
    | v =>
      match scanDate (jsToString v).toList with
      | some ym => some (ym.1 ++ "-" ++ ym.2)
      | none => none

/-- Fold a digit list into a natural number. -/
def digitsToNat (l : List Char) : Nat :=
  l.foldl (fun acc c => acc * 10 + (c.toNat - '0'.toNat)) 0

/-- JS `parseFloat` on a string, restricted to plain decimal notation:
leading whitespace is skipped, then an optional sign, then digits with
an optional fractional part; `none` models NaN (no digit found).
Exponent notation and Infinity do not occur in the data in scope. -/
def parseFloatQ (s : String) : Option ℚ :=
  let l := s.toList.dropWhile Char.isWhitespace
  let sgn : ℚ := if l.headD ' ' = '-' then -1 else 1
  let l1 := match l with
    | '-' :: t => t
    | '+' :: t => t
    | t => t
  let intPart := l1.takeWhile Char.isDigit
  let l2 := l1.drop intPart.length
  let fracPart := match l2 with
    | '.' :: t => t.takeWhile Char.isDigit
    | _ => []
  if intPart.isEmpty ∧ fracPart.isEmpty then none
  else some (sgn * ((digitsToNat intPart : ℚ) +
    (digitsToNat fracPart : ℚ) / ((10 : ℚ) ^ fracPart.length)))

/-- `parseFloat(v) || 0` as applied to the price cell: a number passes
through, a string is parsed with NaN falling back to 0, absent is 0. -/
def jsParseFloatOr0 : JSValue → ℚ
  | .num q => q
  | .str s => (parseFloatQ s).getD 0
  | .undefined => 0

/-- The price cell fails numeric coercion: absent, or a string on which
`parseFloat` yields NaN (this includes the empty string). -/
def jsPriceInvalid : JSValue → Bool
  | .num _ => false
  | .str s => (parseFloatQ s).isNone
  | .undefined => true

/-- A parsed sheet row: an insertion-ordered association list from
column name to cell value, as `sheet_to_json` produces. -/
abbrev Row := List (String × JSValue)

/-- JS property access `row[key]` (`undefined` when absent). -/
def jsGet (row : Row) (key : String) : JSValue :=
  (List.lookup key row).getD .undefined

/-- `getRowValue` from the source: plain access, then with a
byte-order-marker prefix, then any key that ends with the wanted key. -/
def getRowValue (row : Row) (key : String) : JSValue :=
  match List.lookup key row with
  | some v => v
  | none =>
    match List.lookup ("﻿" ++ key) row with
    | some v => v
    | none =>
      match row.find? (fun kv : String × JSValue => key.toList.isSuffixOf kv.1.toList) with
      | some kv => kv.2
      | none => .undefined

/-- The required column names of the upload contract. -/
def requiredCols : List String := ["traffic_source", "order_total_price", "order_id"]

/-- The missing-column computation of `processTrafficFile`: the column
set is read off the first row; an empty table has no columns. -/
def missingCols (data : List Row) : List String :=
  let columns := match data with
    | [] => ([] : List String)
    | r :: _ => r.map (fun kv : String × JSValue => kv.1)
  requiredCols.filter (fun c => ¬ columns.contains c)

/-- The row limit `MAX_ROWS`. -/
def MAX_ROWS : Nat := 100000

/-- An enriched order record, as built per row by `processTrafficFile`
(spec name: OrderRecord). -/
structure OrderRecord where
  order_id : JSValue
  order_total_price : ℚ
  order_month : Option String
  source : String
  medium : String
  campaign : String
  channel : String
  email_campaign_id : Option String
deriving DecidableEq, Repr

/-- The per-row enrichment step of `processTrafficFile`.  Note that only
the `order_date` lookup goes through the BOM-tolerant `getRowValue`;
the required columns are read with plain property access. -/
def enrichRow (row : Row) : OrderRecord :=
  let parsed := parseTrafficSource (jsGet row "traffic_source")
  { order_id := jsGet row "order_id",
    order_total_price := jsParseFloatOr0 (jsGet row "order_total_price"),
    order_month := parseOrderDate (getRowValue row "order_date"),
    source := parsed.source,
    medium := parsed.medium,
    campaign := parsed.campaign,
    channel := classifyChannel parsed.source parsed.medium,
    email_campaign_id := extractEmailCampaignId (jsGet row "traffic_source") }

/-- Report summary block. -/
structure Summary where
  total_orders : Nat
  total_revenue : ℚ
  avg_order_value : ℚ
deriving DecidableEq, Repr

/-- Total revenue: the sum of the coerced prices. -/
def totalRevenue (rows : List OrderRecord) : ℚ :=
  (rows.map (fun r => r.order_total_price)).sum

/-- The summary computation, with the division-by-zero guard. -/
def mkSummary (rows : List OrderRecord) : Summary :=
  { total_orders := rows.length,
    total_revenue := totalRevenue rows,
    avg_order_value :=
      if rows.length = 0 then 0 else totalRevenue rows / (rows.length : ℚ) }

/-- Insert one observation (count 1, revenue `p`) for key `k` into an
insertion-ordered tally list: the JS `map[key]` accumulation object. -/
def bumpKey {κ : Type} [DecidableEq κ] (k : κ) (p : ℚ) :
    List (κ × Nat × ℚ) → List (κ × Nat × ℚ)
  | [] => [(k, 1, p)]
  | (k', n, r) :: t =>
    if k' = k then (k', n + 1, r + p) :: t else (k', n, r) :: bumpKey k p t

/-- Tally the rows by a key, in encounter order. -/
def groupPairs {κ : Type} [DecidableEq κ] (key : OrderRecord → κ)
    (rows : List OrderRecord) : List (κ × Nat × ℚ) :=
  rows.foldl (fun acc r => bumpKey (key r) r.order_total_price acc) []

/-- A channel / source / medium aggregate of the report. -/
structure Agg where
  name : String
  orders : Nat
  revenue : ℚ
  avg_order_value : ℚ
  order_pct : ℚ
  revenue_pct : ℚ
deriving DecidableEq, Repr

/-- The aggregate built from one tally entry, with the percentage and
average computations of the source. -/
def aggOf (total : Nat) (trev : ℚ) (e : String × Nat × ℚ) : Agg :=
  { name := e.1,
    orders := e.2.1,
    revenue := e.2.2,
    avg_order_value := if e.2.1 = 0 then 0 else e.2.2 / (e.2.1 : ℚ),
    order_pct := (e.2.1 : ℚ) / (total : ℚ) * 100,
    revenue_pct := e.2.2 / trev * 100 }

/-- Revenue-descending order on aggregates (the sort comparator
`(a, b) => b.revenue - a.revenue`). -/
def aggGE (a b : Agg) : Prop := b.revenue ≤ a.revenue

instance : DecidableRel aggGE := fun a b => inferInstanceAs (Decidable (b.revenue ≤ a.revenue))

instance : IsTotal Agg aggGE := ⟨fun a b => le_total b.revenue a.revenue⟩

instance : IsTrans Agg aggGE := ⟨fun _ _ _ hab hbc => le_trans hbc hab⟩

/-- One grouping dimension: tally, build aggregates, sort by revenue
descending. -/
def mkAggs (key : OrderRecord → String) (rows : List OrderRecord) : List Agg :=
  List.insertionSort aggGE
    ((groupPairs key rows).map (aggOf rows.length (totalRevenue rows)))

/-- The channel grouping of the report. -/
def channelAggs (rows : List OrderRecord) : List Agg := mkAggs (fun r => r.channel) rows

/-- The source grouping of the report. -/
def sourceAggs (rows : List OrderRecord) : List Agg := mkAggs (fun r => r.source) rows

/-- The medium grouping of the report. -/
def mediumAggs (rows : List OrderRecord) : List Agg := mkAggs (fun r => r.medium) rows

/-- A source-medium combination aggregate. -/
structure ComboAgg where
  source : String
  medium : String
  orders : Nat
  revenue : ℚ
  avg_order_value : ℚ
  revenue_pct : ℚ
deriving DecidableEq, Repr

/-- Revenue-descending order on combination aggregates. -/
def comboGE (a b : ComboAgg) : Prop := b.revenue ≤ a.revenue

instance : DecidableRel comboGE := fun a b => inferInstanceAs (Decidable (b.revenue ≤ a.revenue))

/-- The combination grouping before the top-10 cut, keyed by the
source-medium pair (the source concatenates with a `|||` separator,
which cannot occur in either field since both come from splitting on
`|`). -/
def comboAggsAll (rows : List OrderRecord) : List ComboAgg :=
  List.insertionSort comboGE
    ((groupPairs (fun r => (r.source, r.medium)) rows).map
      (fun e =>
        { source := e.1.1,
          medium := e.1.2,
          orders := e.2.1,
          revenue := e.2.2,
          avg_order_value := if e.2.1 = 0 then 0 else e.2.2 / (e.2.1 : ℚ),
          revenue_pct := e.2.2 / totalRevenue rows * 100 }))

/-- An email-campaign aggregate. -/
structure EmailAgg where
  campaign_id : String
  orders : Nat
  revenue : ℚ
  avg_order_value : ℚ
  revenue_pct : ℚ
deriving DecidableEq, Repr

/-- Revenue-descending order on email-campaign aggregates. -/
def emailGE (a b : EmailAgg) : Prop := b.revenue ≤ a.revenue

instance : DecidableRel emailGE := fun a b => inferInstanceAs (Decidable (b.revenue ≤ a.revenue))

/-- The email-campaign grouping: rows with a campaign id, tallied by
that id, sorted by revenue descending. -/
def emailAggs (rows : List OrderRecord) : List EmailAgg :=
  let emailRows := rows.filter (fun r => r.email_campaign_id.isSome)
  List.insertionSort emailGE
    ((groupPairs (fun r => r.email_campaign_id.getD "") emailRows).map
      (fun e =>
        { campaign_id := e.1,
          orders := e.2.1,
          revenue := e.2.2,
          avg_order_value := if e.2.1 = 0 then 0 else e.2.2 / (e.2.1 : ℚ),
          revenue_pct := e.2.2 / totalRevenue rows * 100 }))

/-- The Hebrew month names of the monthly breakdown. -/
def hebrewMonths : List (String × String) :=
  [("01", "ינואר"), ("02", "פברואר"), ("03", "מרץ"), ("04", "אפריל"),
   ("05", "מאי"), ("06", "יוני"), ("07", "יולי"), ("08", "אוגוסט"),
   ("09", "ספטמבר"), ("10", "אוקטובר"), ("11", "נובמבר"), ("12", "דצמבר")]

/-- The `month_display` rendering (an unknown month part renders as the
JS `undefined`). -/
def monthDisplay (month : String) : String :=
  let parts := (splitOnChar '-' month.toList).map String.mk
  ((List.lookup (parts.getD 1 "") hebrewMonths).getD "undefined") ++ " " ++ parts.headD ""

/-- Lexicographic order on character lists: the code-unit comparison
that `localeCompare` performs on the plain ASCII `"YYYY-MM"` keys. -/
def charListLe : List Char → List Char → Bool
  | [], _ => true
  | _ :: _, [] => false
  | a :: as, b :: bs => if a < b then true else if b < a then false else charListLe as bs

/-- The string order induced by `charListLe`. -/
def strLe (a b : String) : Prop := charListLe a.toList b.toList = true

/-- A monthly aggregate. -/
structure MonthAgg where
  month : String
  month_display : String
  orders : Nat
  revenue : ℚ
  avg_order_value : ℚ
  revenue_pct : ℚ
deriving DecidableEq, Repr

/-- Month-key ascending order on monthly aggregates (the
`localeCompare` sort; the keys are plain ASCII `"YYYY-MM"` strings). -/
def monthLE (a b : MonthAgg) : Prop := strLe a.month b.month

instance : DecidableRel monthLE :=
  fun a b => inferInstanceAs (Decidable (charListLe a.month.toList b.month.toList = true))

lemma charListLe_total : ∀ a b, charListLe a b = true ∨ charListLe b a = true := by
  intro a
  induction a with
  | nil => intro b; left; rfl
  | cons x xs ih =>
    intro b
    cases b with
    | nil => right; rfl
    | cons y ys =>
      by_cases h1 : x < y
      · left
        simp [charListLe, h1]
      · by_cases h2 : y < x
        · right
          simp [charListLe, h2]
        · rcases ih ys with h | h
          · left
            simp [charListLe, h1, h2, h]
          · right
            simp [charListLe, h1, h2, h]

lemma charListLe_trans :
    ∀ a b c, charListLe a b = true → charListLe b c = true → charListLe a c = true := by
  intro a
  induction a with
  | nil => intro b c _ _; rfl
  | cons x xs ih =>
    intro b c hab hbc
    cases b with
    | nil => simp [charListLe] at hab
    | cons y ys =>
      cases c with
      | nil => simp [charListLe] at hbc
      | cons z zs =>
        simp only [charListLe] at hab hbc ⊢
        by_cases hyx : y < x
        · rw [if_neg (asymm hyx), if_pos hyx] at hab
          exact absurd hab (by simp)
        · by_cases hzy : z < y
          · rw [if_neg (asymm hzy), if_pos hzy] at hbc
            exact absurd hbc (by simp)
          · by_cases hxy : x < y
            · have hxz : x < z := lt_of_lt_of_le hxy (le_of_not_lt hzy)
              simp [hxz]
            · have hxy2 : x = y := le_antisymm (le_of_not_lt hyx) (le_of_not_lt hxy)
              by_cases hyz : y < z
              · have hxz : x < z := hxy2 ▸ hyz
                simp [hxz]
              · have hyz2 : y = z := le_antisymm (le_of_not_lt hzy) (le_of_not_lt hyz)
                rw [if_neg hxy, if_neg hyx] at hab
                rw [if_neg hyz, if_neg hzy] at hbc
                have hxz2 : x = z := hxy2.trans hyz2
                rw [if_neg (hxz2 ▸ lt_irrefl x), if_neg (hxz2 ▸ lt_irrefl x)]
                exact ih ys zs hab hbc

instance : IsTotal MonthAgg monthLE :=
  ⟨fun a b => charListLe_total a.month.toList b.month.toList⟩

instance : IsTrans MonthAgg monthLE :=
  ⟨fun a b c hab hbc => charListLe_trans a.month.toList b.month.toList c.month.toList hab hbc⟩

/-- The monthly grouping: rows with a month, tallied by month, sorted
chronologically ascending by the month key. -/
def monthlyAggs (rows : List OrderRecord) : List MonthAgg :=
  let monthlyRows := rows.filter (fun r => r.order_month.isSome)
  List.insertionSort monthLE
    ((groupPairs (fun r => r.order_month.getD "") monthlyRows).map
      (fun e =>
        { month := e.1,
          month_display := monthDisplay e.1,
          orders := e.2.1,
          revenue := e.2.2,
          avg_order_value := if e.2.1 = 0 then 0 else e.2.2 / (e.2.1 : ℚ),
          revenue_pct := e.2.2 / totalRevenue rows * 100 }))

/-- One generated insight.  The fixed Hebrew template is identified by
its type, icon and title; `subject` carries the entity name the template
interpolates (the numeric body of the text is elided). -/
structure Insight where
  type : String
  icon : String
  title : String
  subject : String
deriving DecidableEq, Repr

/-- The fixed emerging AI-search source name list. -/
def emergingNames : List String := ["chatgpt", "claude", "perplexity", "bard"]

/-- `generateInsights` from the source, translated statement by
statement: the three channel rules run inside the nonempty-channels
block, then the top-3-sources, emerging-source and email rules. -/
def generateInsights (summary : Summary) (channels sources : List Agg) : List Insight :=
  (match channels.head? with
   | none => []
   | some top =>
     [{ type := "success", icon := "trophy", title := "ערוץ מוביל בהכנסות", subject := top.name }]
     ++ (match channels.find? (fun c =>
             decide (summary.avg_order_value * ((12 : ℚ) / 10) < c.avg_order_value)) with
         | some c =>
           [{ type := "info", icon := "gem", title := "לקוחות בעלי ערך גבוה", subject := c.name }]
         | none => [])
     ++ (match (channels.filter (fun c =>
             decide (c.avg_order_value < summary.avg_order_value * ((8 : ℚ) / 10)) &&
             decide (10 ≤ c.orders))).getLast? with
         | some worst =>
           [{ type := "warning", icon := "alert", title := "הזדמנות לשיפור", subject := worst.name }]
         | none => []))
  ++ (if 3 ≤ sources.length then
        [{ type := "info", icon := "chart", title := "מקורות תנועה מובילים",
           subject := String.intercalate ", " ((sources.take 3).map (fun s => s.name)) }]
      else [])
  ++ (match sources.find? (fun s => emergingNames.any (fun e => strIncludes (lowerStr s.name) e)) with
      | some found =>
        [{ type := "info", icon := "rocket", title := "מקור תנועה מתפתח", subject := found.name }]
      | none => [])
  ++ (match channels.find? (fun c => decide (c.name = "Email Marketing")) with
      | some email =>
        if 10 ≤ email.orders then
          [{ type := "info", icon := "mail", title := "ביצועי שיווק באימייל", subject := email.name }]
        else []
      | none => [])

/-- The report returned on success. -/
structure Report where
  summary : Summary
  channels : List Agg
  sources : List Agg
  mediums : List Agg
  combinations : List ComboAgg
  email_campaigns : List EmailAgg
  monthly : List MonthAgg
  insights : List Insight
  warning : Option String
deriving DecidableEq, Repr

/-- The row-limit warning text. -/
def rowLimitWarning : String :=
  "הקובץ מכיל יותר מ-100,000 שורות. הניתוח מוגבל ל-100,000 השורות הראשונות."

/-- Build the report from the (already truncated) table. -/
def buildReport (data : List Row) (warning : Option String) : Report :=
  let rows := data.map enrichRow
  let summary := mkSummary rows
  let channels := channelAggs rows
  let sources := sourceAggs rows
  { summary := summary,
    channels := channels,
    sources := sources,
    mediums := mediumAggs rows,
    combinations := (comboAggsAll rows).take 10,
    email_campaigns := emailAggs rows,
    monthly := monthlyAggs rows,
    insights := generateInsights summary channels sources,
    warning := warning }

/-- `processTrafficFile` from the point where the table has been parsed:
column validation (a fatal error naming the missing columns), then the
non-fatal row-limit truncation, then report construction. -/
def processTrafficFile (data : List Row) : Except String Report :=
  let missing := missingCols data
  if missing ≠ [] then
    .error ("עמודות חסרות: " ++ String.intercalate ", " missing)
  else if MAX_ROWS ≤ data.length then
    .ok (buildReport (data.take MAX_ROWS) (some rowLimitWarning))
  else
    .ok (buildReport data none)

/-- The raw string carries a well-formed pair for key `k`. -/
def hasUtmPair (raw k : String) : Bool :=
  (splitOnChar '|' raw.toList).any (fun p => p.contains '=' && (utmKeyOf p == k.toList))

lemma updTS_source_of_ne (acc : ParsedTS) (p : List Char)
    (h : ¬(p.contains '=' = true ∧ utmKeyOf p = "utmcsr".toList)) :
    (updTS acc p).source = acc.source := by
  unfold updTS
  by_cases hc : p.contains '=' = true
  · rw [if_pos hc, if_neg (fun he => h ⟨hc, he⟩)]
    split_ifs <;> rfl
  · rw [if_neg hc]

lemma updTS_medium_of_ne (acc : ParsedTS) (p : List Char)
    (h : ¬(p.contains '=' = true ∧ utmKeyOf p = "utmcmd".toList)) :
    (updTS acc p).medium = acc.medium := by
  unfold updTS
  by_cases hc : p.contains '=' = true
  · rw [if_pos hc]
    split_ifs with h1 h2 h3
    · rfl
    · exact absurd ⟨hc, h2⟩ h
    · rfl
    · rfl
  · rw [if_neg hc]

lemma updTS_campaign_of_ne (acc : ParsedTS) (p : List Char)
    (h : ¬(p.contains '=' = true ∧ utmKeyOf p = "utmccn".toList)) :
    (updTS acc p).campaign = acc.campaign := by
  unfold updTS
  by_cases hc : p.contains '=' = true
  · rw [if_pos hc]
    split_ifs with h1 h2 h3
    · rfl
    · rfl
    · exact absurd ⟨hc, h3⟩ h
    · rfl
  · rw [if_neg hc]

lemma foldl_updTS_source (ps : List (List Char)) (acc : ParsedTS)
    (h : ∀ p ∈ ps, ¬(p.contains '=' = true ∧ utmKeyOf p = "utmcsr".toList)) :
    (ps.foldl updTS acc).source = acc.source := by
  induction ps generalizing acc with
  | nil => rfl
  | cons p ps ih =>
    rw [List.foldl_cons, ih _ (fun q hq => h q (List.mem_cons_of_mem _ hq)),
      updTS_source_of_ne _ _ (h p (List.mem_cons_self _ _))]

lemma foldl_updTS_medium (ps : List (List Char)) (acc : ParsedTS)
    (h : ∀ p ∈ ps, ¬(p.contains '=' = true ∧ utmKeyOf p = "utmcmd".toList)) :
    (ps.foldl updTS acc).medium = acc.medium := by
  induction ps generalizing acc with
  | nil => rfl
  | cons p ps ih =>
    rw [List.foldl_cons, ih _ (fun q hq => h q (List.mem_cons_of_mem _ hq)),
      updTS_medium_of_ne _ _ (h p (List.mem_cons_self _ _))]

lemma foldl_updTS_campaign (ps : List (List Char)) (acc : ParsedTS)
    (h : ∀ p ∈ ps, ¬(p.contains '=' = true ∧ utmKeyOf p = "utmccn".toList)) :
    (ps.foldl updTS acc).campaign = acc.campaign := by
  induction ps generalizing acc with
  | nil => rfl
  | cons p ps ih =>
    rw [List.foldl_cons, ih _ (fun q hq => h q (List.mem_cons_of_mem _ hq)),
      updTS_campaign_of_ne _ _ (h p (List.mem_cons_self _ _))]

lemma no_pair_of_hasUtmPair_false {raw k : String} (h : hasUtmPair raw k = false) :
    ∀ p ∈ splitOnChar '|' raw.toList, ¬(p.contains '=' = true ∧ utmKeyOf p = k.toList) := by
  intro p hp hcontr
  have hfalse := List.any_eq_false.mp h p hp
  simp [hcontr.2] at hfalse
  exact hfalse (by simpa using hcontr.1)

/-- Claim C2: `parseTrafficSource` maps the keys `utmcsr`, `utmcmd` and
`utmccn` (case-insensitively) to the source, medium and campaign fields;
a field whose pair is missing or malformed stays at the sentinel
`"(not set)"`; empty or absent input yields all three sentinels; the
sample string parses to google / cpc / spring and classifies as
Paid Search, and the empty string yields the sentinels with fallback
channel Other. -/
theorem parseTrafficSource_spec :
    parseTrafficSource (.str "utmcsr=google|utmcmd=cpc|utmccn=spring") =
      ⟨"google", "cpc", "spring"⟩ ∧
    classifyChannel "google" "cpc" = "Paid Search" ∧
    parseTrafficSource (.str "") = ⟨notSet, notSet, notSet⟩ ∧
    parseTrafficSource .undefined = ⟨notSet, notSet, notSet⟩ ∧
    classifyChannel notSet notSet = "Other" ∧
    parseTrafficSource (.str "UTMCSR=Google") = ⟨"Google", notSet, notSet⟩ ∧
    (∀ raw, hasUtmPair raw "utmcsr" = false →
      (parseTrafficSource (.str raw)).source = notSet) ∧
    (∀ raw, hasUtmPair raw "utmcmd" = false →
      (parseTrafficSource (.str raw)).medium = notSet) ∧
    (∀ raw, hasUtmPair raw "utmccn" = false →
      (parseTrafficSource (.str raw)).campaign = notSet) := by
  refine ⟨by decide, by decide, by decide, by decide, by decide, by decide, ?_, ?_, ?_⟩
  · intro raw h
    unfold parseTrafficSource
    by_cases hf : jsFalsy (.str raw) = true
    · simp [hf]
    · simp only [hf, Bool.false_eq_true, if_false]
      exact foldl_updTS_source _ _ (no_pair_of_hasUtmPair_false h)
  · intro raw h
    unfold parseTrafficSource
    by_cases hf : jsFalsy (.str raw) = true
    · simp [hf]
    · simp only [hf, Bool.false_eq_true, if_false]
      exact foldl_updTS_medium _ _ (no_pair_of_hasUtmPair_false h)
  · intro raw h
    unfold parseTrafficSource
    by_cases hf : jsFalsy (.str raw) = true
    · simp [hf]
    · simp only [hf, Bool.false_eq_true, if_false]
      exact foldl_updTS_campaign _ _ (no_pair_of_hasUtmPair_false h)

/-- Claim C2 witness: the sentinel conclusion applied to the concrete
string "utmcmd=cpc", which carries no `utmcsr` pair. -/
theorem parseTrafficSource_spec_witness :
    hasUtmPair "utmcmd=cpc" "utmcsr" = false ∧
    (parseTrafficSource (.str "utmcmd=cpc")).source = notSet :=
  ⟨by decide, parseTrafficSource_spec.2.2.2.2.2.2.1 "utmcmd=cpc" (by decide)⟩

/-- Claim C3: `classifyChannel` evaluates its rule list in order with
first match winning, matching case-insensitively: cpc, organic,
direct/none, email, referral, social-name containment, else Other; in
particular the direct pair yields Direct and facebook.com / referral
yields Referral because the referral rule precedes the social rule. -/
theorem classifyChannel_rules :
    (∀ source medium, lowerStr medium = "cpc" →
      classifyChannel source medium = "Paid Search") ∧
    (∀ source medium, lowerStr medium ≠ "cpc" → lowerStr medium = "organic" →
      classifyChannel source medium = "Organic Search") ∧
    (∀ source medium, lowerStr medium ≠ "cpc" → lowerStr medium ≠ "organic" →
      (lowerStr source = "(direct)" ∨ lowerStr medium = "(none)") →
      classifyChannel source medium = "Direct") ∧
    (∀ source medium, lowerStr medium ≠ "cpc" → lowerStr medium ≠ "organic" →
      lowerStr source ≠ "(direct)" → lowerStr medium ≠ "(none)" →
      lowerStr medium = "email" →
      classifyChannel source medium = "Email Marketing") ∧
    (∀ source medium, lowerStr medium ≠ "cpc" → lowerStr medium ≠ "organic" →
      lowerStr source ≠ "(direct)" → lowerStr medium ≠ "(none)" →
      lowerStr medium ≠ "email" → lowerStr medium = "referral" →
      classifyChannel source medium = "Referral") ∧
    (∀ source medium, lowerStr medium ≠ "cpc" → lowerStr medium ≠ "organic" →
      lowerStr source ≠ "(direct)" → lowerStr medium ≠ "(none)" →
      lowerStr medium ≠ "email" → lowerStr medium ≠ "referral" →
      socialNames.any (fun x => strIncludes (lowerStr source) x) = true →
      classifyChannel source medium = "Social") ∧
    (∀ source medium, lowerStr medium ≠ "cpc" → lowerStr medium ≠ "organic" →
      lowerStr source ≠ "(direct)" → lowerStr medium ≠ "(none)" →
      lowerStr medium ≠ "email" → lowerStr medium ≠ "referral" →
      socialNames.any (fun x => strIncludes (lowerStr source) x) = false →
      classifyChannel source medium = "Other") ∧
    classifyChannel "(direct)" "(none)" = "Direct" ∧
    classifyChannel "facebook.com" "referral" = "Referral" := by
  refine ⟨?_, ?_, ?_, ?_, ?_, ?_, ?_, by decide, by decide⟩
  · intro source medium h1
    simp only [classifyChannel]
    rw [if_pos h1]
  · intro source medium h1 h2
    simp only [classifyChannel]
    rw [if_neg h1, if_pos h2]
  · intro source medium h1 h2 h3
    simp only [classifyChannel]
    rw [if_neg h1, if_neg h2, if_pos h3]
  · intro source medium h1 h2 h3 h4 h5
    simp only [classifyChannel]
    rw [if_neg h1, if_neg h2, if_neg (not_or.mpr ⟨h3, h4⟩), if_pos h5]
  · intro source medium h1 h2 h3 h4 h5 h6
    simp only [classifyChannel]
    rw [if_neg h1, if_neg h2, if_neg (not_or.mpr ⟨h3, h4⟩), if_neg h5, if_pos h6]
  · intro source medium h1 h2 h3 h4 h5 h6 h7
    simp only [classifyChannel]
    rw [if_neg h1, if_neg h2, if_neg (not_or.mpr ⟨h3, h4⟩), if_neg h5, if_neg h6,
      if_pos h7]
  · intro source medium h1 h2 h3 h4 h5 h6 h7
    simp only [classifyChannel]
    rw [if_neg h1, if_neg h2, if_neg (not_or.mpr ⟨h3, h4⟩), if_neg h5, if_neg h6,
      if_neg (by simp [h7])]

/-- Claim C3 witness: the referral rule applied at the concrete pair
facebook.com / referral, with the earlier guards discharged. -/
theorem classifyChannel_rules_witness :
    lowerStr "referral" ≠ "cpc" ∧ classifyChannel "facebook.com" "referral" = "Referral" :=
  ⟨by decide, classifyChannel_rules.2.2.2.2.1 "facebook.com" "referral"
    (by decide) (by decide) (by decide) (by decide) (by decide) (by decide)⟩

lemma tryDateAt_none_of_no_slash (l : List Char) (h : '/' ∉ l) : tryDateAt l = none := by
  rcases l with _ | ⟨d1, _ | ⟨d2, _ | ⟨s1, _ | ⟨m1, _ | ⟨m2, _ | ⟨s2, _ | ⟨y1, _ | ⟨y2,
    _ | ⟨y3, _ | ⟨y4, rest⟩⟩⟩⟩⟩⟩⟩⟩⟩⟩
  case nil => rfl
  case cons.nil => rfl
  case cons.cons.nil => rfl
  case cons.cons.cons.nil => rfl
  case cons.cons.cons.cons.nil => rfl
  case cons.cons.cons.cons.cons.nil => rfl
  case cons.cons.cons.cons.cons.cons.nil => rfl
  case cons.cons.cons.cons.cons.cons.cons.nil => rfl
  case cons.cons.cons.cons.cons.cons.cons.cons.nil => rfl
  case cons.cons.cons.cons.cons.cons.cons.cons.cons.nil => rfl
  case cons.cons.cons.cons.cons.cons.cons.cons.cons.cons =>
    by_cases hs1 : s1 = '/'
    · subst hs1
      exact absurd (by simp) h
    · simp [tryDateAt, hs1]

lemma scanDate_none_of_no_slash (l : List Char) (h : '/' ∉ l) : scanDate l = none := by
  induction l with
  | nil => rfl
  | cons c rest ih =>
    have h1 : tryDateAt (c :: rest) = none := tryDateAt_none_of_no_slash _ h
    have h2 : '/' ∉ rest := fun hm => h (List.mem_cons_of_mem _ hm)
    simp [scanDate, h1, ih h2]

/-- Claim C4 (amended): the date normalizer returns a YYYY-MM bucket:
a nonzero numeric input is a spreadsheet serial date counted in days
from the epoch 1899-12-30, so serial 1 maps to 1899-12 (numeric zero is
caught by the falsiness guard and yields nothing, like absent input); a
string matching DD/MM/YYYY maps to its year-month, so 05/03/2024 maps
to 2024-03; any other input shape yields nothing rather than an
error. -/
theorem parseOrderDate_spec :
    parseOrderDate (.num 1) = some "1899-12" ∧
    parseOrderDate (.str "05/03/2024") = some "2024-03" ∧
    parseOrderDate .undefined = none ∧
    parseOrderDate (.str "") = none ∧
    parseOrderDate (.num 0) = none ∧
    (∀ q : ℚ, q ≠ 0 → parseOrderDate (.num q) = some (serialMonthKey q)) ∧
    (∀ s : String, '/' ∉ s.toList → parseOrderDate (.str s) = none) := by
  refine ⟨by decide, by decide, rfl, by decide, by decide, ?_, ?_⟩
  · intro q hq
    simp [parseOrderDate, jsFalsy, hq]
  · intro s hs
    by_cases hempty : s = ""
    · subst hempty
      rfl
    · simp only [parseOrderDate, jsFalsy, jsToString, hempty]
      rw [if_neg (by simp [hempty])]
      rw [scanDate_none_of_no_slash _ hs]

/-- Claim C4 witness: the serial-date conclusion applied at serial
45000 and the no-match conclusion applied at a slash-free string. -/
theorem parseOrderDate_spec_witness :
    ((45000 : ℚ) ≠ 0 ∧ parseOrderDate (.num 45000) = some (serialMonthKey 45000)) ∧
    ('/' ∉ "hello".toList ∧ parseOrderDate (.str "hello") = none) :=
  ⟨⟨by decide, parseOrderDate_spec.2.2.2.2.2.1 45000 (by decide)⟩,
   ⟨by decide, parseOrderDate_spec.2.2.2.2.2.2 "hello" (by decide)⟩⟩

/-- Claim C4 counterexample: numeric zero is not treated as a serial
date: serial treatment would give the epoch month 1899-12, but the
falsiness guard makes the normalizer yield nothing. -/
theorem parseOrderDate_serial_zero :
    parseOrderDate (.num 0) = none ∧ serialMonthKey 0 = "1899-12" ∧
    (none : Option String) ≠ some "1899-12" :=
  ⟨by decide, by decide, by decide⟩

/-- Rule 1: the top channel by revenue, emitted whenever a channel
exists. -/
def insightRule1 (channels : List Agg) : Option Insight :=
  channels.head?.map
    (fun top => ⟨"success", "trophy", "ערוץ מוביל בהכנסות", top.name⟩)

/-- Rule 2: the first channel whose average order value exceeds 1.2
times the overall average. -/
def insightRule2 (summary : Summary) (channels : List Agg) : Option Insight :=
  (channels.find? (fun c =>
      decide (summary.avg_order_value * ((12 : ℚ) / 10) < c.avg_order_value))).map
    (fun c => ⟨"info", "gem", "לקוחות בעלי ערך גבוה", c.name⟩)

/-- The qualifying channels of the low-average-order-value rule. -/
def lowAovFilter (summary : Summary) (channels : List Agg) : List Agg :=
  channels.filter (fun c =>
    decide (c.avg_order_value < summary.avg_order_value * ((8 : ℚ) / 10)) &&
    decide (10 ≤ c.orders))

/-- Rule 3: the last qualifying low-average-order-value channel. -/
def insightRule3 (summary : Summary) (channels : List Agg) : Option Insight :=
  (lowAovFilter summary channels).getLast?.map
    (fun worst => ⟨"warning", "alert", "הזדמנות לשיפור", worst.name⟩)

/-- Rule 4: the top three sources, emitted when at least three exist. -/
def insightRule4 (sources : List Agg) : Option Insight :=
  if 3 ≤ sources.length then
    some ⟨"info", "chart", "מקורות תנועה מובילים",
      String.intercalate ", " ((sources.take 3).map (fun s => s.name))⟩
  else none

/-- Rule 5: the first source whose name contains an emerging AI-search
name. -/
def insightRule5 (sources : List Agg) : Option Insight :=
  (sources.find? (fun s => emergingNames.any (fun e => strIncludes (lowerStr s.name) e))).map
    (fun found => ⟨"info", "rocket", "מקור תנועה מתפתח", found.name⟩)

/-- Rule 6: the Email Marketing channel when it has at least ten
orders. -/
def insightRule6 (channels : List Agg) : Option Insight :=
  match channels.find? (fun c => decide (c.name = "Email Marketing")) with
  | some email =>
    if 10 ≤ email.orders then
      some ⟨"info", "mail", "ביצועי שיווק באימייל", email.name⟩
    else none
  | none => none

lemma generateInsights_decomp (summary : Summary) (channels sources : List Agg) :
    generateInsights summary channels sources =
      (insightRule1 channels).toList ++ (insightRule2 summary channels).toList ++
      (insightRule3 summary channels).toList ++ (insightRule4 sources).toList ++
      (insightRule5 sources).toList ++ (insightRule6 channels).toList := by
  unfold generateInsights insightRule1 insightRule2 insightRule3 insightRule4 insightRule5
    insightRule6 lowAovFilter
  cases channels with
  | nil =>
    cases h5 : sources.find? (fun s =>
        emergingNames.any (fun e => strIncludes (lowerStr s.name) e)) <;>
      by_cases h4 : 3 ≤ sources.length <;>
      simp [h4]
  | cons c cs =>
    cases h2 : (c :: cs).find? (fun x =>
        decide (summary.avg_order_value * ((12 : ℚ) / 10) < x.avg_order_value)) <;>
      cases h3 : ((c :: cs).filter (fun x =>
        decide (x.avg_order_value < summary.avg_order_value * ((8 : ℚ) / 10)) &&
        decide (10 ≤ x.orders))).getLast? <;>
      cases h5 : sources.find? (fun s =>
        emergingNames.any (fun e => strIncludes (lowerStr s.name) e)) <;>
      cases h6 : (c :: cs).find? (fun x => decide (x.name = "Email Marketing")) <;>
      by_cases h4 : 3 ≤ sources.length <;>
      simp [h4] <;>
      (try (split <;> simp))

/-- Claim C5 (amended): the insight generator emits between zero and
SIX items (each of the six fixed-template rules contributes at most
one), appended in the specified rule order - top channel, high average
order value, low average order value, top-3 sources, emerging AI-search
source, Email Marketing - with each rule gated independently of the
others. -/
theorem generateInsights_structure (summary : Summary) (channels sources : List Agg) :
    generateInsights summary channels sources =
      (insightRule1 channels).toList ++ (insightRule2 summary channels).toList ++
      (insightRule3 summary channels).toList ++ (insightRule4 sources).toList ++
      (insightRule5 sources).toList ++ (insightRule6 channels).toList ∧
    (generateInsights summary channels sources).length ≤ 6 := by
  have hlen : ∀ (o : Option Insight), o.toList.length ≤ 1 := by
    intro o
    cases o <;> simp
  refine ⟨generateInsights_decomp _ _ _, ?_⟩
  rw [generateInsights_decomp]
  simp only [List.length_append]
  have h1 := hlen (insightRule1 channels)
  have h2 := hlen (insightRule2 summary channels)
  have h3 := hlen (insightRule3 summary channels)
  have h4 := hlen (insightRule4 sources)
  have h5 := hlen (insightRule5 sources)
  have h6 := hlen (insightRule6 channels)
  omega

/-- The summary of the six-insight example. -/
def sixSummary : Summary := ⟨30, 3000, 100⟩

/-- The channels of the six-insight example: a high-value top channel
and a low-value Email Marketing channel. -/
def sixChannels : List Agg :=
  [⟨"Paid Search", 10, 5000, 500, 0, 0⟩, ⟨"Email Marketing", 20, 1000, 50, 0, 0⟩]

/-- The sources of the six-insight example: three sources, one an
emerging AI-search name. -/
def sixSources : List Agg :=
  [⟨"chatgpt.com", 1, 1, 1, 0, 0⟩, ⟨"a", 1, 1, 1, 0, 0⟩, ⟨"b", 1, 1, 1, 0, 0⟩]

/-- Claim C5 counterexample: all six rules fire at once, producing six
insights - more than the claimed maximum of five. -/
theorem generateInsights_six :
    (generateInsights sixSummary sixChannels sixSources).length = 6 ∧ ¬(6 ≤ 5) :=
  ⟨by decide, by decide⟩

lemma rule1_no_alert (channels : List Agg) :
    (insightRule1 channels).toList.filter (fun i => i.icon == "alert") = [] := by
  unfold insightRule1
  cases channels.head? <;> simp

lemma rule2_no_alert (summary : Summary) (channels : List Agg) :
    (insightRule2 summary channels).toList.filter (fun i => i.icon == "alert") = [] := by
  unfold insightRule2
  cases channels.find? (fun c =>
    decide (summary.avg_order_value * ((12 : ℚ) / 10) < c.avg_order_value)) <;> simp

lemma rule4_no_alert (sources : List Agg) :
    (insightRule4 sources).toList.filter (fun i => i.icon == "alert") = [] := by
  unfold insightRule4
  split <;> simp

lemma rule5_no_alert (sources : List Agg) :
    (insightRule5 sources).toList.filter (fun i => i.icon == "alert") = [] := by
  unfold insightRule5
  cases sources.find? (fun s => emergingNames.any (fun e => strIncludes (lowerStr s.name) e)) <;>
    simp

lemma rule6_no_alert (channels : List Agg) :
    (insightRule6 channels).toList.filter (fun i => i.icon == "alert") = [] := by
  unfold insightRule6
  cases channels.find? (fun c => decide (c.name = "Email Marketing")) with
  | none => rfl
  | some e => dsimp only; split <;> simp

/-- Claim C6 (amended): whenever some channel qualifies for the
low-average-order-value rule (below 0.8 of the overall average order
value, at least ten orders), the low-value insight is emitted exactly
once, for the LAST qualifying channel in the channels list - with the
revenue-descending channel order this is the least-revenue qualifier,
which need not be the qualifier with the smallest average order
value. -/
theorem lowAov_insight_last (summary : Summary) (channels sources : List Agg) (w : Agg)
    (h : (lowAovFilter summary channels).getLast? = some w) :
    (generateInsights summary channels sources).filter (fun i => i.icon == "alert") =
      [⟨"warning", "alert", "הזדמנות לשיפור", w.name⟩] := by
  rw [generateInsights_decomp]
  simp only [List.filter_append, rule1_no_alert, rule2_no_alert, rule4_no_alert,
    rule5_no_alert, rule6_no_alert, List.append_nil, List.nil_append]
  unfold insightRule3
  rw [h]
  simp

/-- The summary of the last-qualifier example (overall average order
value 10, so the qualifying threshold is 8). -/
def lowSummary : Summary := ⟨80, 1300, 10⟩

/-- The smallest-average qualifying channel of the example. -/
def lowX : Agg := ⟨"X", 50, 200, 4, 0, 0⟩

/-- The last qualifying channel of the example (larger average than X,
smaller revenue). -/
def lowY : Agg := ⟨"Y", 20, 100, 5, 0, 0⟩

/-- The revenue-descending channel list of the example. -/
def lowChannels : List Agg := [⟨"B", 10, 1000, 100, 0, 0⟩, lowX, lowY]

/-- Claim C6 witness: the amended conclusion at the concrete channel
list, with the qualifying-channel hypothesis discharged. -/
theorem lowAov_insight_last_witness :
    (lowAovFilter lowSummary lowChannels).getLast? = some lowY ∧
    (generateInsights lowSummary lowChannels []).filter (fun i => i.icon == "alert") =
      [⟨"warning", "alert", "הזדמנות לשיפור", lowY.name⟩] :=
  ⟨by decide, lowAov_insight_last lowSummary lowChannels [] lowY (by decide)⟩

/-- Claim C6 counterexample: channel X qualifies and has the smallest
average order value (4, against 5 for Y), yet the emitted low-value
insight names Y, the last qualifier in the revenue-sorted list. -/
theorem lowAov_not_min_aov :
    ((generateInsights lowSummary lowChannels []).filter
        (fun i => i.icon == "alert")).map (fun i => i.subject) = ["Y"] ∧
    lowX ∈ lowAovFilter lowSummary lowChannels ∧
    lowX.avg_order_value < lowY.avg_order_value ∧
    lowX.name = "X" :=
  ⟨by decide, by decide, by decide, by decide⟩

/-- Total order count of a tally list. -/
def sumOrders {κ : Type} (l : List (κ × Nat × ℚ)) : Nat :=
  (l.map (fun e => e.2.1)).sum

/-- Total revenue of a tally list. -/
def sumRev {κ : Type} (l : List (κ × Nat × ℚ)) : ℚ :=
  (l.map (fun e => e.2.2)).sum

lemma sumOrders_bumpKey {κ : Type} [DecidableEq κ] (k : κ) (p : ℚ)
    (l : List (κ × Nat × ℚ)) : sumOrders (bumpKey k p l) = sumOrders l + 1 := by
  induction l with
  | nil => rfl
  | cons e t ih =>
    obtain ⟨k', n, r⟩ := e
    unfold bumpKey
    split_ifs with h
    · simp [sumOrders]
      omega
    · simp only [sumOrders, List.map_cons, List.sum_cons] at ih ⊢
      omega

lemma sumRev_bumpKey {κ : Type} [DecidableEq κ] (k : κ) (p : ℚ)
    (l : List (κ × Nat × ℚ)) : sumRev (bumpKey k p l) = sumRev l + p := by
  induction l with
  | nil => simp [bumpKey, sumRev]
  | cons e t ih =>
    obtain ⟨k', n, r⟩ := e
    unfold bumpKey
    split_ifs with h
    · simp [sumRev]
      ring
    · simp only [sumRev, List.map_cons, List.sum_cons] at ih ⊢
      rw [ih]
      ring

lemma sumOrders_foldl {κ : Type} [DecidableEq κ] (key : OrderRecord → κ)
    (rows : List OrderRecord) :
    ∀ acc, sumOrders (rows.foldl (fun a r => bumpKey (key r) r.order_total_price a) acc) =
      sumOrders acc + rows.length := by
  induction rows with
  | nil => intro acc; simp
  | cons r rs ih =>
    intro acc
    rw [List.foldl_cons, ih, sumOrders_bumpKey]
    simp
    omega

lemma sumRev_foldl {κ : Type} [DecidableEq κ] (key : OrderRecord → κ)
    (rows : List OrderRecord) :
    ∀ acc, sumRev (rows.foldl (fun a r => bumpKey (key r) r.order_total_price a) acc) =
      sumRev acc + (rows.map (fun r => r.order_total_price)).sum := by
  induction rows with
  | nil => intro acc; simp
  | cons r rs ih =>
    intro acc
    rw [List.foldl_cons, ih, sumRev_bumpKey]
    simp
    ring

lemma sumOrders_groupPairs {κ : Type} [DecidableEq κ] (key : OrderRecord → κ)
    (rows : List OrderRecord) : sumOrders (groupPairs key rows) = rows.length := by
  unfold groupPairs
  rw [sumOrders_foldl]
  simp [sumOrders]

lemma sumRev_groupPairs {κ : Type} [DecidableEq κ] (key : OrderRecord → κ)
    (rows : List OrderRecord) : sumRev (groupPairs key rows) = totalRevenue rows := by
  unfold groupPairs totalRevenue
  rw [sumRev_foldl]
  simp [sumRev]

lemma mkAggs_sum_orders (key : OrderRecord → String) (rows : List OrderRecord) :
    ((mkAggs key rows).map (fun a => a.orders)).sum = rows.length := by
  unfold mkAggs
  rw [List.Perm.sum_eq ((List.perm_insertionSort aggGE _).map (fun a => a.orders)),
    List.map_map]
  exact sumOrders_groupPairs key rows

lemma sum_map_orderPct {κ : Type} (l : List (κ × Nat × ℚ)) (t : ℚ) :
    (l.map (fun e => (e.2.1 : ℚ) / t * 100)).sum = (sumOrders l : ℚ) / t * 100 := by
  induction l with
  | nil => simp [sumOrders]
  | cons e es ih =>
    simp only [sumOrders, List.map_cons, List.sum_cons] at ih ⊢
    rw [ih]
    push_cast
    ring

lemma sum_map_revPct {κ : Type} (l : List (κ × Nat × ℚ)) (t : ℚ) :
    (l.map (fun e => e.2.2 / t * 100)).sum = sumRev l / t * 100 := by
  induction l with
  | nil => simp [sumRev]
  | cons e es ih =>
    simp only [sumRev, List.map_cons, List.sum_cons] at ih ⊢
    rw [ih]
    ring

lemma mkAggs_sum_order_pct (key : OrderRecord → String) (rows : List OrderRecord)
    (h : rows ≠ []) : ((mkAggs key rows).map (fun a => a.order_pct)).sum = 100 := by
  unfold mkAggs
  rw [List.Perm.sum_eq ((List.perm_insertionSort aggGE _).map (fun a => a.order_pct)),
    List.map_map]
  have hcomp : ((fun a : Agg => a.order_pct) ∘ aggOf rows.length (totalRevenue rows)) =
      fun e : String × Nat × ℚ => (e.2.1 : ℚ) / (rows.length : ℚ) * 100 := rfl
  rw [hcomp, sum_map_orderPct, sumOrders_groupPairs]
  have hn : (rows.length : ℚ) ≠ 0 := by
    have : rows.length ≠ 0 := by simpa [List.length_eq_zero] using h
    exact_mod_cast this
  rw [div_self hn, one_mul]

lemma mkAggs_sum_revenue_pct (key : OrderRecord → String) (rows : List OrderRecord)
    (h : totalRevenue rows ≠ 0) :
    ((mkAggs key rows).map (fun a => a.revenue_pct)).sum = 100 := by
  unfold mkAggs
  rw [List.Perm.sum_eq ((List.perm_insertionSort aggGE _).map (fun a => a.revenue_pct)),
    List.map_map]
  have hcomp : ((fun a : Agg => a.revenue_pct) ∘ aggOf rows.length (totalRevenue rows)) =
      fun e : String × Nat × ℚ => e.2.2 / totalRevenue rows * 100 := rfl
  rw [hcomp, sum_map_revPct, sumRev_groupPairs]
  rw [div_self h, one_mul]

/-- The three percentage and count invariants of one grouping. -/
def sumsOk (aggs : List Agg) (rows : List OrderRecord) : Prop :=
  (aggs.map (fun a => a.orders)).sum = (mkSummary rows).total_orders ∧
  (aggs.map (fun a => a.order_pct)).sum = 100 ∧
  (totalRevenue rows ≠ 0 → (aggs.map (fun a => a.revenue_pct)).sum = 100)

/-- Claim C1 (amended): for every nonempty uploaded row set (the table
is nonempty once column validation has passed), within each single
grouping dimension the order_count values sum to the upload total, the
order_pct values sum to exactly 100, and the revenue_pct values sum to
exactly 100 whenever the total revenue is nonzero; when the total
revenue is zero the revenue_pct values are 0/0 quotients (NaN in JS, 0
in this rational model) and do not sum to 100. -/
theorem grouping_sums (table : List Row) (h : table ≠ []) :
    sumsOk (channelAggs (table.map enrichRow)) (table.map enrichRow) ∧
    sumsOk (sourceAggs (table.map enrichRow)) (table.map enrichRow) ∧
    sumsOk (mediumAggs (table.map enrichRow)) (table.map enrichRow) := by
  have hne : table.map enrichRow ≠ [] := by simpa using h
  refine ⟨⟨?_, ?_, ?_⟩, ⟨?_, ?_, ?_⟩, ⟨?_, ?_, ?_⟩⟩
  · exact mkAggs_sum_orders _ _
  · exact mkAggs_sum_order_pct _ _ hne
  · exact fun hrev => mkAggs_sum_revenue_pct _ _ hrev
  · exact mkAggs_sum_orders _ _
  · exact mkAggs_sum_order_pct _ _ hne
  · exact fun hrev => mkAggs_sum_revenue_pct _ _ hrev
  · exact mkAggs_sum_orders _ _
  · exact mkAggs_sum_order_pct _ _ hne
  · exact fun hrev => mkAggs_sum_revenue_pct _ _ hrev

/-- A one-row table with a nonzero price. -/
def oneRowTable : List Row :=
  [[("traffic_source", JSValue.str "utmcsr=google|utmcmd=cpc"),
    ("order_total_price", JSValue.str "10"),
    ("order_id", JSValue.num 1)]]

/-- Claim C1 witness: the grouping invariants at a concrete one-row
upload with nonzero revenue. -/
theorem grouping_sums_witness :
    (oneRowTable ≠ [] ∧ totalRevenue (oneRowTable.map enrichRow) ≠ 0) ∧
    ((channelAggs (oneRowTable.map enrichRow)).map (fun a => a.order_pct)).sum = 100 ∧
    ((channelAggs (oneRowTable.map enrichRow)).map (fun a => a.revenue_pct)).sum = 100 :=
  ⟨⟨by decide, by decide⟩,
   (grouping_sums oneRowTable (by decide)).1.2.1,
   (grouping_sums oneRowTable (by decide)).1.2.2 (by decide)⟩

/-- A one-row table whose price cell is empty, so its total revenue
is 0. -/
def zeroRevTable : List Row :=
  [[("traffic_source", JSValue.str ""),
    ("order_total_price", JSValue.str ""),
    ("order_id", JSValue.num 1)]]

/-- The channel revenue_pct sum of a successful report. -/
def reportChanRevPctSum : Except String Report → Option ℚ
  | .ok r => some ((r.channels.map (fun a => a.revenue_pct)).sum)
  | .error _ => none

/-- Claim C1 counterexample: a one-row upload whose empty price cell
coerces to 0 has total revenue 0; its channel revenue_pct values sum
to 0 (each is a 0/0 quotient, NaN in JS), not approximately 100. -/
theorem revenue_pct_zero_revenue :
    reportChanRevPctSum (processTrafficFile zeroRevTable) = some 0 ∧
    some (0 : ℚ) ≠ some (100 : ℚ) :=
  ⟨by decide, by decide⟩

/-- The keys of a tally list, in insertion order. -/
def keysOf {κ : Type} (l : List (κ × Nat × ℚ)) : List κ := l.map (fun e => e.1)

lemma keysOf_bumpKey {κ : Type} [DecidableEq κ] (k : κ) (p : ℚ)
    (l : List (κ × Nat × ℚ)) :
    keysOf (bumpKey k p l) = if k ∈ keysOf l then keysOf l else keysOf l ++ [k] := by
  induction l with
  | nil => simp [bumpKey, keysOf]
  | cons e t ih =>
    obtain ⟨k', n, r⟩ := e
    unfold bumpKey
    by_cases h : k' = k
    · subst h
      simp [keysOf]
    · have hne : ¬(k = k') := fun he => h he.symm
      simp only [keysOf, List.map_cons] at ih ⊢
      rw [if_neg h]
      simp only [List.map_cons, List.mem_cons, hne, false_or, List.cons_append]
      rw [ih]
      split_ifs with hm <;> rfl

lemma mem_keysOf_bumpKey {κ : Type} [DecidableEq κ] (m k : κ) (p : ℚ)
    (l : List (κ × Nat × ℚ)) :
    m ∈ keysOf (bumpKey k p l) ↔ m ∈ keysOf l ∨ m = k := by
  rw [keysOf_bumpKey]
  split_ifs with hm
  · constructor
    · exact Or.inl
    · rintro (h | rfl)
      · exact h
      · exact hm
  · simp

lemma nodup_keysOf_bumpKey {κ : Type} [DecidableEq κ] (k : κ) (p : ℚ)
    (l : List (κ × Nat × ℚ)) (h : (keysOf l).Nodup) :
    (keysOf (bumpKey k p l)).Nodup := by
  rw [keysOf_bumpKey]
  split_ifs with hm
  · exact h
  · simp [List.nodup_append, h, hm]

lemma nodup_keysOf_foldl {κ : Type} [DecidableEq κ] (key : OrderRecord → κ)
    (rows : List OrderRecord) :
    ∀ acc, (keysOf acc).Nodup →
      (keysOf (rows.foldl (fun a r => bumpKey (key r) r.order_total_price a) acc)).Nodup := by
  induction rows with
  | nil => exact fun acc h => h
  | cons r rs ih =>
    intro acc h
    rw [List.foldl_cons]
    exact ih _ (nodup_keysOf_bumpKey _ _ _ h)

lemma mem_keysOf_foldl {κ : Type} [DecidableEq κ] (key : OrderRecord → κ)
    (rows : List OrderRecord) (m : κ) :
    ∀ acc, (m ∈ keysOf (rows.foldl (fun a r => bumpKey (key r) r.order_total_price a) acc) ↔
      m ∈ keysOf acc ∨ ∃ r ∈ rows, key r = m) := by
  induction rows with
  | nil => intro acc; simp
  | cons r rs ih =>
    intro acc
    rw [List.foldl_cons, ih, mem_keysOf_bumpKey]
    constructor
    · rintro ((h | rfl) | ⟨x, hx, hkx⟩)
      · exact Or.inl h
      · exact Or.inr ⟨r, List.mem_cons_self _ _, rfl⟩
      · exact Or.inr ⟨x, List.mem_cons_of_mem _ hx, hkx⟩
    · rintro (h | ⟨x, hx, hkx⟩)
      · exact Or.inl (Or.inl h)
      · rcases List.mem_cons.mp hx with rfl | hx2
        · exact Or.inl (Or.inr hkx.symm)
        · exact Or.inr ⟨x, hx2, hkx⟩

lemma nodup_keysOf_groupPairs {κ : Type} [DecidableEq κ] (key : OrderRecord → κ)
    (rows : List OrderRecord) : (keysOf (groupPairs key rows)).Nodup := by
  unfold groupPairs
  exact nodup_keysOf_foldl key rows [] (by simp [keysOf])

lemma mem_keysOf_groupPairs {κ : Type} [DecidableEq κ] (key : OrderRecord → κ)
    (rows : List OrderRecord) (m : κ) :
    m ∈ keysOf (groupPairs key rows) ↔ ∃ r ∈ rows, key r = m := by
  unfold groupPairs
  rw [mem_keysOf_foldl]
  simp [keysOf]

lemma monthlyAggs_months_perm (rows : List OrderRecord) :
    ((monthlyAggs rows).map (fun a => a.month)).Perm
      (keysOf (groupPairs (fun r => r.order_month.getD "")
        (rows.filter (fun r => r.order_month.isSome)))) := by
  unfold monthlyAggs
  refine ((List.perm_insertionSort monthLE _).map _).trans ?_
  rw [List.map_map]
  exact List.Perm.refl _

/-- Claim C9: the monthly grouping contains exactly one aggregate per
distinct order_month among records that have one (its month keys are
exactly the months occurring in the rows, without duplicates), sorted
ascending by month key regardless of input row order; when no record
has a month the grouping is empty and no error is raised. -/
theorem monthly_grouping_spec (rows : List OrderRecord) :
    List.Sorted strLe ((monthlyAggs rows).map (fun a => a.month)) ∧
    ((monthlyAggs rows).map (fun a => a.month)).Nodup ∧
    (∀ m : String,
      m ∈ (monthlyAggs rows).map (fun a => a.month) ↔ ∃ r ∈ rows, r.order_month = some m) ∧
    ((∀ r ∈ rows, r.order_month = none) → monthlyAggs rows = []) := by
  have hmem : ∀ m : String,
      m ∈ (monthlyAggs rows).map (fun a => a.month) ↔ ∃ r ∈ rows, r.order_month = some m := by
    intro m
    rw [(monthlyAggs_months_perm rows).mem_iff, mem_keysOf_groupPairs]
    constructor
    · rintro ⟨r, hr, hm⟩
      rw [List.mem_filter] at hr
      refine ⟨r, hr.1, ?_⟩
      rcases ho : r.order_month with _ | mo
      · rw [ho] at hr
        simp at hr
      · rw [ho] at hm
        simp at hm
        rw [hm]
    · rintro ⟨r, hr, hm⟩
      exact ⟨r, List.mem_filter.mpr ⟨hr, by simp [hm]⟩, by simp [hm]⟩
  refine ⟨?_, ?_, hmem, ?_⟩
  · unfold monthlyAggs
    exact List.Pairwise.map _ (fun a b h => h)
      (List.sorted_insertionSort monthLE _)
  · exact (monthlyAggs_months_perm rows).nodup_iff.mpr
      (nodup_keysOf_groupPairs _ _)
  · intro hnone
    by_contra hne
    obtain ⟨a, ha⟩ := List.exists_mem_of_ne_nil _ hne
    have : a.month ∈ (monthlyAggs rows).map (fun x => x.month) :=
      List.mem_map_of_mem _ ha
    obtain ⟨r, hr, hm⟩ := (hmem a.month).mp this
    rw [hnone r hr] at hm
    exact Option.noConfusion hm

/-- A record carrying month 2024-03. -/
def monthRecA : OrderRecord :=
  ⟨JSValue.num 1, 10, some "2024-03", notSet, notSet, notSet, "Other", none⟩

/-- A record carrying month 2024-01. -/
def monthRecB : OrderRecord :=
  ⟨JSValue.num 2, 20, some "2024-01", notSet, notSet, notSet, "Other", none⟩

/-- Claim C9 witness: rows arriving in descending month order still
produce the ascending month list, as the theorem instance at this
concrete input asserts. -/
theorem monthly_grouping_spec_witness :
    (monthlyAggs [monthRecA, monthRecB]).map (fun a => a.month) = ["2024-01", "2024-03"] ∧
    List.Sorted strLe ((monthlyAggs [monthRecA, monthRecB]).map (fun a => a.month)) :=
  ⟨by decide, (monthly_grouping_spec [monthRecA, monthRecB]).1⟩

lemma comboAggsAll_sum_orders (rows : List OrderRecord) :
    ((comboAggsAll rows).map (fun c => c.orders)).sum = rows.length := by
  unfold comboAggsAll
  rw [List.Perm.sum_eq ((List.perm_insertionSort comboGE _).map (fun c => c.orders)),
    List.map_map]
  exact sumOrders_groupPairs _ rows

/-- Claim C10: every row of the parsed table is counted as exactly one
order regardless of the validity of its price cell: a missing, empty or
non-numeric order_total_price coerces to price 0, and every row still
increments total_orders and the order_count sums of the channel, source,
medium and combination tallies while contributing 0 to revenue. -/
theorem row_counting_spec (table : List Row) :
    (mkSummary (table.map enrichRow)).total_orders = table.length ∧
    (∀ row ∈ table, jsPriceInvalid (jsGet row "order_total_price") = true →
      (enrichRow row).order_total_price = 0) ∧
    ((channelAggs (table.map enrichRow)).map (fun a => a.orders)).sum = table.length ∧
    ((sourceAggs (table.map enrichRow)).map (fun a => a.orders)).sum = table.length ∧
    ((mediumAggs (table.map enrichRow)).map (fun a => a.orders)).sum = table.length ∧
    ((comboAggsAll (table.map enrichRow)).map (fun c => c.orders)).sum = table.length := by
  have hlen : (table.map enrichRow).length = table.length := List.length_map _ _
  refine ⟨?_, ?_, ?_, ?_, ?_, ?_⟩
  · exact hlen
  · intro row _ hinv
    show jsParseFloatOr0 (jsGet row "order_total_price") = 0
    cases hv : jsGet row "order_total_price" with
    | num q =>
      rw [hv] at hinv
      simp [jsPriceInvalid] at hinv
    | str s =>
      rw [hv] at hinv
      simp only [jsPriceInvalid, Option.isNone_iff_eq_none] at hinv
      simp [jsParseFloatOr0, hinv]
    | undefined => simp [jsParseFloatOr0]
  · exact (mkAggs_sum_orders (fun r => r.channel) _).trans hlen
  · exact (mkAggs_sum_orders (fun r => r.source) _).trans hlen
  · exact (mkAggs_sum_orders (fun r => r.medium) _).trans hlen
  · exact (comboAggsAll_sum_orders _).trans hlen

/-- A row whose price cell is a non-numeric string. -/
def invalidPriceRow : Row :=
  [("traffic_source", JSValue.str "utmcsr=google"),
   ("order_total_price", JSValue.str "N/A"),
   ("order_id", JSValue.num 7)]

/-- Claim C10 witness: a concrete row with a non-numeric price coerces
to price 0 yet still counts as one order. -/
theorem row_counting_spec_witness :
    jsPriceInvalid (jsGet invalidPriceRow "order_total_price") = true ∧
    (enrichRow invalidPriceRow).order_total_price = 0 ∧
    (mkSummary ([invalidPriceRow].map enrichRow)).total_orders = 1 :=
  ⟨by decide,
   (row_counting_spec [invalidPriceRow]).2.1 invalidPriceRow (by simp) (by decide),
   (row_counting_spec [invalidPriceRow]).1⟩

/-- Claim C8: a parsed table that exceeds the 100,000-row cap and passes
column validation is processed without a fatal error: the result is the
report built from the first 100,000 rows only, carrying the non-fatal
row-limit warning string. -/
theorem row_limit_spec (data : List Row) (h1 : MAX_ROWS < data.length)
    (h2 : missingCols data = []) :
    processTrafficFile data =
      .ok (buildReport (data.take MAX_ROWS) (some rowLimitWarning)) := by
  unfold processTrafficFile
  rw [h2]
  simp [Nat.le_of_lt h1]

/-- A valid row used to build the oversized table. -/
def okRow : Row :=
  [("traffic_source", JSValue.str "utmcsr=google|utmcmd=cpc"),
   ("order_total_price", JSValue.str "10"),
   ("order_id", JSValue.num 1)]

/-- A table of 100,001 identical valid rows. -/
def bigTable : List Row := List.replicate 100001 okRow

/-- Claim C8 witness: the truncation conclusion at a concrete table of
100,001 valid rows, with both hypotheses discharged. -/
theorem row_limit_spec_witness :
    (MAX_ROWS < bigTable.length ∧ missingCols bigTable = []) ∧
    processTrafficFile bigTable =
      .ok (buildReport (bigTable.take MAX_ROWS) (some rowLimitWarning)) := by
  have h1 : MAX_ROWS < bigTable.length := by
    have hlen1 : bigTable.length = 100001 := by
      unfold bigTable
      exact List.length_replicate _ _
    rw [hlen1]
    decide
  have h2 : missingCols bigTable = [] := by
    show missingCols (List.replicate 100001 okRow) = []
    rw [show (100001 : Nat) = 100000 + 1 from rfl, List.replicate_succ]
    rfl
  exact ⟨⟨h1, h2⟩, row_limit_spec bigTable h1 h2⟩

/-- A table whose first (and only) row carries the byte-order marker on
its traffic_source key but is otherwise complete. -/
def bomRow : Row :=
  [("﻿traffic_source", JSValue.str "utmcsr=google|utmcmd=cpc"),
   ("order_total_price", JSValue.str "10"),
   ("order_id", JSValue.num 1)]

/-- Claim C7 (code bug): the BOM-tolerant helper `getRowValue` does read
the value behind the marked key, but column validation and the required
column reads use plain property access, so a table whose first key
carries the byte-order marker is rejected with a missing-columns error
naming traffic_source instead of being processed. -/
theorem bom_column_rejected :
    getRowValue bomRow "traffic_source" = JSValue.str "utmcsr=google|utmcmd=cpc" ∧
    missingCols [bomRow] = ["traffic_source"] ∧
    (processTrafficFile [bomRow]).isOk = false :=
  ⟨by decide, by decide, by decide⟩
